import Mathlib

/-!
# Verification of the MediaConvert transcode-plan engine and job monitor

Shallow embedding of the core logic of the video-processing module
(`mediaconvert` module): geometry planning (`calculateOutputResolution`,
`ensureEven`), bitrate planning (the bitrate slice of `createMediaConvertJob`),
watermark sizing (`calculateWatermarkSize`, `calculateWatermarkOffset`),
overlay sequence generation (`generateWatermarkSequence`,
`generateStaticWatermarks`), the watermark-mode selection of
`createMediaConvertJob`, the polling state machine of `monitorJobProgress`,
and its output-URI reconstruction on completion.

JavaScript `number` arithmetic on the (small, integral or simple-rational)
values involved is modelled exactly with `Nat` and `ℚ`:
`Math.floor` on a non-negative rational is `⌊·⌋₊`, `Math.round` on a
non-negative rational is `⌊· + 1/2⌋₊` (round half up), `Math.ceil (a / b)`
for naturals is `(a + b - 1) / b`.  Source dimension/bitrate/duration values
are non-negative integers, so `Nat` carries them; watermark x/y coordinates
can go negative (`videoWidth - watermarkSize - offset`), so they are `Int`.
-/

/-- JS `Math.floor` applied to a non-negative rational. -/
def mathFloor (q : ℚ) : ℕ := ⌊q⌋₊

/-- JS `Math.round` applied to a non-negative rational: round half up. -/
def mathRound (q : ℚ) : ℕ := ⌊q + 1/2⌋₊

/-- JS `Math.ceil (a / b)` for natural `a`, `b` (exact when `b > 0`;
for `a = 0` it also agrees with the source loop, which runs zero times). -/
def jsCeilDiv (a b : ℕ) : ℕ := (a + b - 1) / b

/-- `ensureEven` (mediaconvert module): round a dimension down to the nearest
even number: `Math.floor(dimension / 2) * 2`. -/
def ensureEven (dimension : ℕ) : ℕ := dimension / 2 * 2

/-- Output resolution record `{ width, height }`. -/
structure Resolution where
  width : ℕ
  height : ℕ
deriving DecidableEq, Repr

/-- `calculateOutputResolution(width, height, maxLongEdge)`:
if the long edge fits, only even-rounding is applied; otherwise both
dimensions are scaled by `maxLongEdge / longEdge`, rounded (`Math.round`),
then even-rounded. -/
def calculateOutputResolution (width height : ℕ) (maxLongEdge : ℕ) : Resolution :=
  let longEdge := max width height
  if longEdge ≤ maxLongEdge then
    { width := ensureEven width, height := ensureEven height }
  else
    let scaleFactor : ℚ := (maxLongEdge : ℚ) / (longEdge : ℚ)
    let newWidth := mathRound ((width : ℚ) * scaleFactor)
    let newHeight := mathRound ((height : ℚ) * scaleFactor)
    { width := ensureEven newWidth, height := ensureEven newHeight }

/-- `calculateWatermarkSize(videoWidth, videoHeight, percentSize, minSize)`:
`Math.floor(max(smallerDimension * percentSize / 100, minSize))`. -/
def calculateWatermarkSize (videoWidth videoHeight : ℕ)
    (percentSize : ℕ := 10) (minSize : ℕ := 80) : ℕ :=
  let smallerDimension := min videoWidth videoHeight
  let calculatedSize : ℚ := ((smallerDimension : ℚ) * (percentSize : ℚ)) / 100
  let finalSize := max calculatedSize (minSize : ℚ)
  mathFloor finalSize

/-- `calculateWatermarkOffset(videoWidth, videoHeight)`:
`percentOffset = Math.max(3, Math.min(5, smallerDimension / 400))` (a rational,
between 3 and 5), `offset = smallerDimension * percentOffset / 100`,
result `Math.max(Math.floor(offset), 20)`. -/
def calculateWatermarkOffset (videoWidth videoHeight : ℕ) : ℕ :=
  let smallerDimension := min videoWidth videoHeight
  let percentOffset : ℚ := max 3 (min 5 ((smallerDimension : ℚ) / 400))
  let offset : ℚ := ((smallerDimension : ℚ) * percentOffset) / 100
  max (mathFloor offset) 20

/-- One entry of the `InsertableImages` array handed to the remote service.
The source stores `StartTime` as the timecode string
`secondsToTimecode(watermarkStartMs / 1000)`; we keep the underlying integer
millisecond value `watermarkStartMs` itself (`startTimeMs`), the quantity all
planning logic is written in.  Static watermarks set neither `Duration` nor
`StartTime`, modelled as `none`. -/
structure InsertableImage where
  imageInserterInput : String
  layer : ℕ
  opacity : ℕ
  width : ℕ
  height : ℕ
  duration : Option ℕ
  startTimeMs : Option ℕ
  imageX : ℤ
  imageY : ℤ
deriving DecidableEq, Repr

/-- The body of the `corners.forEach` loop of `generateWatermarkSequence`:
given the running `(watermarks, layerIndex)` accumulator and the enumerated
corner `(cornerIndex, (x, y))`, push a watermark if it starts before the video
ends, truncating its duration at the video end. -/
def cornerStep (videoDurationMs watermarkSize durationMs opacity : ℕ)
    (watermarkUri : String) (sequenceStartMs : ℕ)
    (acc : List InsertableImage × ℕ) (corner : ℕ × ℤ × ℤ) :
    List InsertableImage × ℕ :=
  let watermarkStartMs := sequenceStartMs + corner.1 * durationMs
  if watermarkStartMs < videoDurationMs then
    let watermarkDuration :=
      if watermarkStartMs + durationMs > videoDurationMs then
        videoDurationMs - watermarkStartMs
      else durationMs
    (acc.1 ++ [{ imageInserterInput := watermarkUri
                 layer := acc.2
                 opacity := opacity
                 width := watermarkSize
                 height := watermarkSize
                 duration := some watermarkDuration
                 startTimeMs := some watermarkStartMs
                 imageX := corner.2.1
                 imageY := corner.2.2 }], acc.2 + 1)
  else acc

/-- The body of the outer `for (sequenceIndex ...)` loop of
`generateWatermarkSequence`: run `cornerStep` over the enumerated corners with
`sequenceStartMs = sequenceIndex * sequenceDurationMs`. -/
def sequenceStep (videoDurationMs watermarkSize durationMs opacity : ℕ)
    (watermarkUri : String) (corners : List (ℤ × ℤ))
    (acc : List InsertableImage × ℕ) (sequenceIndex : ℕ) :
    List InsertableImage × ℕ :=
  corners.enum.foldl
    (cornerStep videoDurationMs watermarkSize durationMs opacity watermarkUri
      (sequenceIndex * (durationMs * corners.length))) acc

/-- The `corners` array of `generateWatermarkSequence`: top-left at
`(offset, offset)`, bottom-right at
`(videoWidth - watermarkSize - offset, videoHeight - watermarkSize - offset)`. -/
def wmCorners (videoWidth videoHeight watermarkSize offset : ℕ) : List (ℤ × ℤ) :=
  [((offset : ℤ), (offset : ℤ)),
   ((videoWidth : ℤ) - (watermarkSize : ℤ) - (offset : ℤ),
    (videoHeight : ℤ) - (watermarkSize : ℤ) - (offset : ℤ))]

/-- `generateWatermarkSequence` (looping overlay mode): two corners
(top-left, bottom-right), one full cycle is `durationMs * 2`; the number of
cycles is `Math.ceil(videoDurationMs / sequenceDurationMs)`; watermarks are
emitted corner by corner, cycle by cycle, with a monotonically increasing
layer index. -/
def generateWatermarkSequence (videoWidth videoHeight videoDurationMs
    watermarkSize offset durationMs opacity : ℕ) (watermarkUri : String) :
    List InsertableImage :=
  let corners := wmCorners videoWidth videoHeight watermarkSize offset
  let sequenceDurationMs := durationMs * corners.length
  let numberOfSequences := jsCeilDiv videoDurationMs sequenceDurationMs
  ((List.range numberOfSequences).foldl
    (sequenceStep videoDurationMs watermarkSize durationMs opacity
      watermarkUri corners) ([], 0)).1

/-- Closed form of the watermark that `generateWatermarkSequence` pushes with
layer index `layerIndex` for global corner slot `k` (cycle `k / 2`, corner
`k % 2`): start `k * durationMs`, duration truncated at the video end, corner
alternating top-left / bottom-right. -/
def loopPlacementAt (videoWidth videoHeight videoDurationMs watermarkSize
    offset durationMs opacity : ℕ) (watermarkUri : String)
    (layerIndex k : ℕ) : InsertableImage :=
  { imageInserterInput := watermarkUri
    layer := layerIndex
    opacity := opacity
    width := watermarkSize
    height := watermarkSize
    duration := some (if k * durationMs + durationMs > videoDurationMs
      then videoDurationMs - k * durationMs else durationMs)
    startTimeMs := some (k * durationMs)
    imageX := if k % 2 = 0 then (offset : ℤ)
      else (videoWidth : ℤ) - (watermarkSize : ℤ) - (offset : ℤ)
    imageY := if k % 2 = 0 then (offset : ℤ)
      else (videoHeight : ℤ) - (watermarkSize : ℤ) - (offset : ℤ) }

/-- The start (ms) of a placement: the integer-millisecond value the source
encodes into `StartTime` (static placements, which have none, read 0). -/
def placementStart (wm : InsertableImage) : ℕ := wm.startTimeMs.getD 0

/-- The duration (ms) of a placement (static placements, which have none,
read 0). -/
def placementDuration (wm : InsertableImage) : ℕ := wm.duration.getD 0

/-- `generateStaticWatermarks`: exactly two full-video watermarks (no
`Duration`, no `StartTime`), top-left at `(offset, offset)` with layer 0 and
bottom-right at `(videoWidth - size - offset, videoHeight - size - offset)`
with layer 1. -/
def generateStaticWatermarks (videoWidth videoHeight watermarkSize offset
    opacity : ℕ) (watermarkUri : String) : List InsertableImage :=
  [{ imageInserterInput := watermarkUri
     layer := 0
     opacity := opacity
     width := watermarkSize
     height := watermarkSize
     duration := none
     startTimeMs := none
     imageX := (offset : ℤ)
     imageY := (offset : ℤ) },
   { imageInserterInput := watermarkUri
     layer := 1
     opacity := opacity
     width := watermarkSize
     height := watermarkSize
     duration := none
     startTimeMs := none
     imageX := (videoWidth : ℤ) - (watermarkSize : ℤ) - (offset : ℤ)
     imageY := (videoHeight : ℤ) - (watermarkSize : ℤ) - (offset : ℤ) }]

/-- Result of `getVideoMetadata` (probe): rotation-normalized dimensions,
duration (ms), bitrate (bps, `videoStream.bit_rate || format.bit_rate || 0`,
so a successful probe may well report `bitrate = 0`), and the detected pixel
format.  `colorSpace = none` models the probe-failure default object, which
has no `colorSpace` property at all. -/
structure VideoMetadata where
  durationMs : ℕ
  width : ℕ
  height : ℕ
  bitrate : ℕ
  colorSpace : Option String
deriving DecidableEq, Repr

/-- The metadata defaults used by `createMediaConvertJob` when
`getVideoMetadata` throws:
`{ durationMs: 15000, width: 1920, height: 1080, bitrate: 5000000 }`. -/
def defaultVideoMetadata : VideoMetadata :=
  { durationMs := 15000, width := 1920, height := 1080, bitrate := 5000000
    colorSpace := none }

/-- The scale factor `createMediaConvertJob` hands to the bitrate computation:
`Math.min(outputResolution.width / metadata.width,
outputResolution.height / metadata.height)` — recomputed from the rounded
output resolution, not the raw `maxLongEdge / longEdge` ratio. -/
def jobScaleFactor (metadata : VideoMetadata) : ℚ :=
  let outputResolution := calculateOutputResolution metadata.width metadata.height 1920
  min ((outputResolution.width : ℚ) / (metadata.width : ℚ))
    ((outputResolution.height : ℚ) / (metadata.height : ℚ))

/-- The bitrate computation of `createMediaConvertJob`:
`scaledBitrate = Math.floor(metadata.bitrate * scaleFactor)`,
`outputBitrate = Math.min(scaledBitrate, 10000000)`. -/
def jobOutputBitrate (metadata : VideoMetadata) : ℕ :=
  let scaledBitrate := mathFloor ((metadata.bitrate : ℚ) * jobScaleFactor metadata)
  let maxBitrate := 10000000
  min scaledBitrate maxBitrate

/-- The color spaces `createMediaConvertJob` treats as incompatible with
animated watermarks. -/
def problematicColorSpaces : List String := ["yuv420p10le", "yuv420p", "yuvj420p"]

/-- `needsStaticWatermark = problematicColorSpaces.includes(metadata.colorSpace)`;
a metadata object with no `colorSpace` property (probe-failure default) is not
in the list. -/
def needsStaticWatermark (metadata : VideoMetadata) : Bool :=
  match metadata.colorSpace with
  | some s => problematicColorSpaces.contains s
  | none => false

/-- The watermark-planning slice of `createMediaConvertJob`: compute the
output resolution, watermark size and offset from it, then generate either
the static pair or the looping sequence depending on the color space.
`bucket` is `config.s3.bucket`. -/
def selectWatermarkSequence (bucket : String) (metadata : VideoMetadata) :
    List InsertableImage :=
  let outputResolution := calculateOutputResolution metadata.width metadata.height 1920
  let watermarkSize := calculateWatermarkSize outputResolution.width outputResolution.height 10 80
  let watermarkOffset := calculateWatermarkOffset outputResolution.width outputResolution.height
  let watermarkUri := "s3://" ++ bucket ++ "/assets/watermark.png"
  if needsStaticWatermark metadata then
    generateStaticWatermarks outputResolution.width outputResolution.height
      watermarkSize watermarkOffset 80 watermarkUri
  else
    generateWatermarkSequence outputResolution.width outputResolution.height
      metadata.durationMs watermarkSize watermarkOffset 5000 80 watermarkUri

/-- Remote job statuses compared against by `monitorJobProgress`; any other
status string falls into the `default` logging branch. -/
inductive RemoteStatus where
  | submitted
  | progressing
  | complete
  | canceled
  | error
  | other (s : String)
deriving DecidableEq, Repr

/-- A terminal status breaks the polling loop. -/
def isTerminalStatus : RemoteStatus → Bool
  | .complete => true
  | .error => true
  | .canceled => true
  | _ => false

/-- One observation of the remote job by the monitor: the reported status,
the wall-clock seconds elapsed since monitoring started
(`Math.floor((Date.now() - startTime) / 1000)`), and the optional
`JobPercentComplete` the service reported on this poll. -/
structure JobPoll where
  status : RemoteStatus
  elapsedSeconds : ℕ
  percentComplete : Option ℕ
deriving DecidableEq, Repr

/-- The mutable session state of `monitorJobProgress`: `previousStatus`
(initially `null`) and `lastProgressUpdate` (initially `0`). -/
structure MonitorState where
  previousStatus : Option RemoteStatus
  lastProgressUpdate : ℕ
deriving DecidableEq, Repr

/-- The user-visible events the monitor emits: a one-time status-transition
log line, or a periodic progress log line (recorded with the elapsed seconds
at which it fired). -/
inductive MonitorEvent where
  | statusTransition (s : RemoteStatus)
  | progressUpdate (elapsedSeconds : ℕ)
deriving DecidableEq, Repr

/-- One iteration of the polling loop of `monitorJobProgress` (the logging
and session-state logic; terminal-state returns/throws are modelled
separately): on a status change, log the transition once and update
`previousStatus`; on an unchanged `PROGRESSING` status, log progress iff
10 s have passed since the last progress log or the service reported a
`JobPercentComplete` value, then update `lastProgressUpdate`. -/
def monitorStep (st : MonitorState) (poll : JobPoll) :
    MonitorState × List MonitorEvent :=
  if some poll.status ≠ st.previousStatus then
    ({ st with previousStatus := some poll.status },
     [.statusTransition poll.status])
  else if poll.status = .progressing then
    -- the source's `shouldShowUpdate` condition, inlined
    if 10 ≤ poll.elapsedSeconds - st.lastProgressUpdate ∨
        poll.percentComplete ≠ none then
      ({ st with lastProgressUpdate := poll.elapsedSeconds },
       [.progressUpdate poll.elapsedSeconds])
    else (st, [])
  else (st, [])

/-- The polling loop of `monitorJobProgress` over a finite sequence of polls:
process polls in order, stopping after the first terminal status (the source
`break`s / returns / throws there). -/
def runMonitor (st : MonitorState) : List JobPoll → MonitorState × List MonitorEvent
  | [] => (st, [])
  | poll :: rest =>
    let stepped := monitorStep st poll
    if isTerminalStatus poll.status then stepped
    else
      let next := runMonitor stepped.1 rest
      (next.1, stepped.2 ++ next.2)

/-- The statuses the monitor actually observes from a poll sequence: every
poll up to and including the first terminal one. -/
def observedStatuses : List JobPoll → List RemoteStatus
  | [] => []
  | poll :: rest =>
    if isTerminalStatus poll.status then [poll.status]
    else poll.status :: observedStatuses rest

/-- Modelled from the spec: the transition events §4.5 demands — one event
per change of status relative to the previously seen status, none for a
repeated status.  Used to compare the monitor's actual event stream against
the specification's words. -/
def specTransitions : Option RemoteStatus → List RemoteStatus → List RemoteStatus
  | _, [] => []
  | prev, s :: rest =>
    if some s ≠ prev then s :: specTransitions (some s) rest
    else specTransitions prev rest

/-- Project the status-transition events out of an event stream. -/
def transitionEvents (events : List MonitorEvent) : List RemoteStatus :=
  events.filterMap fun e =>
    match e with
    | .statusTransition s => some s
    | _ => none

/-- Project the periodic progress events out of an event stream. -/
def progressEvents (events : List MonitorEvent) : List ℕ :=
  events.filterMap fun e =>
    match e with
    | .progressUpdate t => some t
    | _ => none

/-- `path.basename(p)`: the component after the last `/` (the inputs fed to
it here are file URIs / file names without trailing slashes). -/
def jsBasename (p : String) : String :=
  ⟨(p.toList.reverse.takeWhile (fun c => c ≠ '/')).reverse⟩

/-- `path.extname(p)`: the suffix of the basename from its last `.`,
empty when there is no dot or when the only dot leads the name. -/
def jsExtname (p : String) : String :=
  let b := (jsBasename p).toList
  let tailPart := b.reverse.takeWhile (fun c => c ≠ '.')
  if tailPart.length + 1 ≤ b.length then
    if tailPart.length + 1 = b.length then ""
    else ⟨'.' :: tailPart.reverse⟩
  else ""

/-- `path.basename(fileName, path.extname(fileName))` as used by the monitor:
the basename with its extension suffix removed. -/
def baseNameNoExt (p : String) : String :=
  let b := (jsBasename p).toList
  ⟨b.take (b.length - (jsExtname p).length)⟩

/-- `destination.endsWith('/') ? destination.slice(0, -1) : destination`. -/
def stripTrailingSlash (d : String) : String :=
  if d.toList.getLast? = some '/' then ⟨d.toList.dropLast⟩ else d

/-- The slice of one echoed `Outputs[0]` entry the monitor reads:
`NameModifier` (absent ↦ `none`) and `ContainerSettings?.Container`. -/
structure EchoedOutput where
  nameModifier : Option String
  container : Option String
deriving DecidableEq, Repr

/-- The slice of one echoed `OutputGroups[0]` entry the monitor reads:
`OutputGroupSettings?.FileGroupSettings?.Destination` (optional chaining, so
possibly absent) and the `Outputs` array. -/
structure EchoedOutputGroup where
  destination : Option String
  outputs : List EchoedOutput
deriving DecidableEq, Repr

/-- The slice of one echoed `Inputs[0]` entry the monitor reads. -/
structure EchoedInput where
  fileInput : Option String
deriving DecidableEq, Repr

/-- The echoed `job.Settings` the monitor reads on completion. -/
structure EchoedSettings where
  outputGroups : List EchoedOutputGroup
  inputs : List EchoedInput
deriving DecidableEq, Repr

/-- The completed remote job as seen by the monitor (`Settings` may be
absent). -/
structure RemoteJob where
  settings : Option EchoedSettings
deriving DecidableEq, Repr

/-- The output-URI reconstruction of `monitorJobProgress` on `COMPLETE`:
`cleanDestination + "/" + baseName + nameModifier + extension`.  Every path
on which the source either skips reconstruction (guard false) or throws
inside the surrounding `try` (absent `FileInput`, empty `Outputs` reaching
`Outputs[0].NameModifier`, absent `Destination` reaching `.endsWith`) is
caught there and leaves `outputUri = null`, modelled as `none`.
`nowMs` models the `Date.now()` used when `NameModifier` is absent. -/
def tryReconstructUri (job : RemoteJob) (nowMs : ℕ) : Option String :=
  match job.settings with
  | none => none
  | some s =>
    match s.outputGroups, s.inputs with
    | og :: _, inp :: _ =>
      (match inp.fileInput with
      | none => none
      | some fileInputUri =>
        let fileName := jsBasename fileInputUri
        let baseName := baseNameNoExt fileName
        match og.outputs with
        | [] => none
        | o :: _ =>
          let nameModifier :=
            match o.nameModifier with
            | some m => m
            | none => "_" ++ toString nowMs
          let extension :=
            if o.container = some "MP4" then ".mp4"
            else if o.container = some "MOV" then ".mov"
            else ".mp4"
          match og.destination with
          | none => none
          | some destination =>
            some (stripTrailingSlash destination ++ "/" ++ baseName ++
              nameModifier ++ extension))
    | _, _ => none

/-- The value `monitorJobProgress` resolves with on success. -/
structure MonitorResult where
  job : RemoteJob
  outputUri : Option String
deriving DecidableEq, Repr

/-- The distinct failure kinds the monitor can terminate with. -/
inductive MonitorFailure where
  | jobCanceled
  | jobFailed
deriving DecidableEq, Repr

/-- What the monitor does once a poll reports a given status: on `COMPLETE`
it returns `{ job, outputUri }` (URI reconstruction is best-effort and its
failure is swallowed); on `CANCELED` and `ERROR` it throws distinct errors;
on every non-terminal status it keeps polling (`none`). -/
def terminalOutcome (job : RemoteJob) (status : RemoteStatus) (nowMs : ℕ) :
    Except MonitorFailure (Option MonitorResult) :=
  match status with
  | .complete => .ok (some { job := job, outputUri := tryReconstructUri job nowMs })
  | .canceled => .error .jobCanceled
  | .error => .error .jobFailed
  | _ => .ok none

/-! ## Arithmetic lemmas about `jsCeilDiv` -/

theorem lt_jsCeilDiv_iff {d : ℕ} (hd : 0 < d) (V k : ℕ) :
    k < jsCeilDiv V d ↔ k * d < V := by
  have h : k < jsCeilDiv V d ↔ (k + 1) * d ≤ V + d - 1 := by
    rw [jsCeilDiv, Nat.lt_iff_add_one_le, Nat.le_div_iff_mul_le hd]
  rw [h, Nat.add_mul, Nat.one_mul]
  generalize k * d = x
  omega

theorem le_mul_jsCeilDiv {d : ℕ} (hd : 0 < d) (V : ℕ) :
    V ≤ jsCeilDiv V d * d := by
  by_contra h
  push_neg at h
  have h2 := (lt_jsCeilDiv_iff hd V (jsCeilDiv V d)).mpr h
  omega

theorem jsCeilDiv_le_double {d : ℕ} (hd : 0 < d) (V : ℕ) :
    jsCeilDiv V d ≤ 2 * jsCeilDiv V (d * 2) := by
  by_contra h
  push_neg at h
  have h1 : 2 * jsCeilDiv V (d * 2) * d < V :=
    (lt_jsCeilDiv_iff hd V _).mp h
  have h2 : V ≤ jsCeilDiv V (d * 2) * (d * 2) :=
    le_mul_jsCeilDiv (by omega) V
  have h3 : 2 * jsCeilDiv V (d * 2) * d = jsCeilDiv V (d * 2) * (d * 2) := by
    ring
  omega

/-! ## Closed form of the looping watermark generator -/

theorem cornerStep_emit {V sz d op : ℕ} {uri : String} {s : ℕ}
    (acc : List InsertableImage × ℕ) (j : ℕ) (xy : ℤ × ℤ)
    (h : s + j * d < V) :
    cornerStep V sz d op uri s acc (j, xy)
    = (acc.1 ++ [{ imageInserterInput := uri
                   layer := acc.2
                   opacity := op
                   width := sz
                   height := sz
                   duration := some (if s + j * d + d > V then V - (s + j * d) else d)
                   startTimeMs := some (s + j * d)
                   imageX := xy.1
                   imageY := xy.2 }],
       acc.2 + 1) := by
  simp [cornerStep, h]

theorem cornerStep_skip {V sz d op : ℕ} {uri : String} {s : ℕ}
    (acc : List InsertableImage × ℕ) (j : ℕ) (xy : ℤ × ℤ)
    (h : ¬ s + j * d < V) :
    cornerStep V sz d op uri s acc (j, xy) = acc := by
  simp [cornerStep, h]

theorem sequenceFold_closed (W H V sz off d op : ℕ) (uri : String)
    (hd : 0 < d) (n : ℕ) (ws : List InsertableImage) (L : ℕ) :
    (List.range n).foldl
      (sequenceStep V sz d op uri (wmCorners W H sz off)) (ws, L)
    = (ws ++ (List.range (min (2 * n) (jsCeilDiv V d))).map
        (fun k => loopPlacementAt W H V sz off d op uri (L + k) k),
       L + min (2 * n) (jsCeilDiv V d)) := by
  induction n generalizing ws L with
  | zero => simp
  | succ n ih =>
    rw [List.range_succ, List.foldl_append, ih]
    simp only [List.foldl_cons, List.foldl_nil]
    rw [sequenceStep]
    have hcorners : (wmCorners W H sz off).enum
        = [(0, ((off : ℤ), (off : ℤ))),
           (1, ((W : ℤ) - (sz : ℤ) - (off : ℤ), (H : ℤ) - (sz : ℤ) - (off : ℤ)))] := rfl
    have hlen : (wmCorners W H sz off).length = 2 := rfl
    rw [hcorners, hlen]
    simp only [List.foldl_cons, List.foldl_nil]
    have e0 : n * (d * 2) + 0 * d = 2 * n * d := by ring
    have e1 : n * (d * 2) + 1 * d = (2 * n + 1) * d := by ring
    rcases Nat.lt_or_ge (2 * n) (jsCeilDiv V d) with h2n | h2n
    · rcases Nat.lt_or_ge (2 * n + 1) (jsCeilDiv V d) with h2n1 | h2n1
      · -- both corners of this cycle start before the video ends
        have cond0 : n * (d * 2) + 0 * d < V := by
          rw [e0]; exact (lt_jsCeilDiv_iff hd V _).mp h2n
        have cond1 : n * (d * 2) + 1 * d < V := by
          rw [e1]; exact (lt_jsCeilDiv_iff hd V _).mp h2n1
        rw [cornerStep_emit _ _ _ cond0, cornerStep_emit _ _ _ cond1]
        have hmin1 : min (2 * n) (jsCeilDiv V d) = 2 * n := by omega
        have hmin2 : min (2 * (n + 1)) (jsCeilDiv V d) = 2 * n + 1 + 1 := by omega
        rw [hmin1, hmin2, List.range_succ, List.range_succ, List.map_append,
          List.map_append]
        simp only [List.map_cons, List.map_nil, loopPlacementAt]
        have m0 : 2 * n % 2 = 0 := Nat.mul_mod_right 2 n
        have m1 : (2 * n + 1) % 2 = 1 := by omega
        simp only [m0, m1, e0, e1]
        simp [List.append_assoc, Nat.add_assoc]
      · -- only the first corner fits (the emitted count is odd)
        have cond0 : n * (d * 2) + 0 * d < V := by
          rw [e0]; exact (lt_jsCeilDiv_iff hd V _).mp h2n
        have cond1 : ¬ n * (d * 2) + 1 * d < V := by
          rw [e1]
          intro hlt
          exact absurd ((lt_jsCeilDiv_iff hd V _).mpr hlt) (by omega)
        rw [cornerStep_emit _ _ _ cond0, cornerStep_skip _ _ _ cond1]
        have hmin1 : min (2 * n) (jsCeilDiv V d) = 2 * n := by omega
        have hmin2 : min (2 * (n + 1)) (jsCeilDiv V d) = 2 * n + 1 := by omega
        rw [hmin1, hmin2, List.range_succ, List.map_append]
        simp only [List.map_cons, List.map_nil, loopPlacementAt]
        have m0 : 2 * n % 2 = 0 := Nat.mul_mod_right 2 n
        simp only [m0, e0]
        simp [List.append_assoc, Nat.add_assoc]
    · -- every corner of this cycle starts at or past the video end
      have cond0 : ¬ n * (d * 2) + 0 * d < V := by
        rw [e0]
        intro hlt
        exact absurd ((lt_jsCeilDiv_iff hd V _).mpr hlt) (by omega)
      have cond1 : ¬ n * (d * 2) + 1 * d < V := by
        rw [e1]
        intro hlt
        exact absurd ((lt_jsCeilDiv_iff hd V _).mpr hlt) (by omega)
      rw [cornerStep_skip _ _ _ cond0, cornerStep_skip _ _ _ cond1]
      have hmin : min (2 * (n + 1)) (jsCeilDiv V d) = min (2 * n) (jsCeilDiv V d) := by
        omega
      rw [hmin]

/-- Closed form of `generateWatermarkSequence`: for a positive per-corner
duration it emits exactly `⌈videoDurationMs / durationMs⌉` watermarks, the
`k`-th (layer `k`) starting at `k * durationMs`. -/
theorem generateWatermarkSequence_closed (W H V sz off d op : ℕ) (uri : String)
    (hd : 0 < d) :
    generateWatermarkSequence W H V sz off d op uri
    = (List.range (jsCeilDiv V d)).map
        (fun k => loopPlacementAt W H V sz off d op uri k k) := by
  show ((List.range (jsCeilDiv V (d * (wmCorners W H sz off).length))).foldl
      (sequenceStep V sz d op uri (wmCorners W H sz off)) ([], 0)).1 = _
  have hlen : (wmCorners W H sz off).length = 2 := rfl
  rw [hlen, sequenceFold_closed W H V sz off d op uri hd]
  have hm : min (2 * jsCeilDiv V (d * 2)) (jsCeilDiv V d) = jsCeilDiv V d :=
    min_eq_right (jsCeilDiv_le_double hd V)
  rw [hm]
  simp

/-- **C1**: for every positive video duration and positive per-corner hold
duration, the looping generator's placements start at the consecutive
multiples `0, d, 2d, …` of the per-corner duration, each has positive
duration truncated at the video end (`min d (V - startMs)`), no placement
starts at or after the video end, and each instant of `[0, V)` is covered by
exactly one placement's half-open interval — no gaps, no overlaps. -/
theorem c1_looping_overlay_partition (W H V sz off d op : ℕ) (uri : String)
    (hV : 0 < V) (hd : 0 < d) :
    (generateWatermarkSequence W H V sz off d op uri).map placementStart
      = (List.range (jsCeilDiv V d)).map (fun k => k * d) ∧
    (∀ wm ∈ generateWatermarkSequence W H V sz off d op uri,
      0 < placementDuration wm ∧
      placementDuration wm = min d (V - placementStart wm) ∧
      placementStart wm < V) ∧
    (∀ t < V, ∃! wm, wm ∈ generateWatermarkSequence W H V sz off d op uri ∧
      placementStart wm ≤ t ∧ t < placementStart wm + placementDuration wm) := by
  rw [generateWatermarkSequence_closed W H V sz off d op uri hd]
  refine ⟨?_, ?_, ?_⟩
  · simp [placementStart, loopPlacementAt]
  · intro wm hmem
    rw [List.mem_map] at hmem
    obtain ⟨k, hk, rfl⟩ := hmem
    rw [List.mem_range] at hk
    have hkd : k * d < V := (lt_jsCeilDiv_iff hd V k).mp hk
    simp only [placementStart, placementDuration, loopPlacementAt,
      Option.getD_some]
    generalize k * d = x at hkd ⊢
    split_ifs with h <;> omega
  · intro t ht
    have hdiv : t / d * d ≤ t := Nat.div_mul_le_self t d
    have hmod : t < t / d * d + d := by
      have h1 : d * (t / d) + t % d = t := Nat.div_add_mod t d
      have h2 : t % d < d := Nat.mod_lt t hd
      calc t = d * (t / d) + t % d := h1.symm
        _ < d * (t / d) + d := Nat.add_lt_add_left h2 _
        _ = t / d * d + d := by rw [Nat.mul_comm]
    have hk0 : t / d < jsCeilDiv V d :=
      (lt_jsCeilDiv_iff hd V (t / d)).mpr (Nat.lt_of_le_of_lt hdiv ht)
    refine ⟨loopPlacementAt W H V sz off d op uri (t / d) (t / d),
      ⟨List.mem_map.mpr ⟨t / d, List.mem_range.mpr hk0, rfl⟩, ?_, ?_⟩, ?_⟩
    · simpa [placementStart, loopPlacementAt] using hdiv
    · simp only [placementStart, placementDuration, loopPlacementAt,
        Option.getD_some]
      split_ifs with h
      · omega
      · omega
    · rintro wm' ⟨hmem', hle', hlt'⟩
      rw [List.mem_map] at hmem'
      obtain ⟨k, hk, rfl⟩ := hmem'
      rw [List.mem_range] at hk
      simp only [placementStart, placementDuration, loopPlacementAt,
        Option.getD_some] at hle' hlt'
      have hkt : t < k * d + d := by
        rcases Nat.lt_or_ge V (k * d + d) with hcase | hcase
        · rw [if_pos hcase] at hlt'
          omega
        · rw [if_neg (by omega)] at hlt'
          exact hlt'
      have hksucc : t < (k + 1) * d := by
        rw [Nat.add_mul, Nat.one_mul]
        exact hkt
      have hkeq : t / d = k := Nat.div_eq_of_lt_le hle' hksucc
      rw [hkeq]

/-- Witness for **C1** at the spec scenario: a 12 s video with a 5 s
per-corner hold emits placements starting at 0, 5000, 10000 ms. -/
theorem c1_looping_overlay_partition_witness :
    0 < 12000 ∧ 0 < 5000 ∧
    (generateWatermarkSequence 1920 1080 12000 108 32 5000 80 "wm").map placementStart
      = (List.range (jsCeilDiv 12000 5000)).map (fun k => k * 5000) :=
  ⟨by decide, by decide,
    (c1_looping_overlay_partition 1920 1080 12000 108 32 5000 80 "wm"
      (by decide) (by decide)).1⟩

/-- **C10**: for a zero-duration source in looping mode the generator
computes zero full cycles (`Math.ceil(0 / cycleMs) = 0`) and returns the
empty placement list — a zero-duration video carries no watermark placements
at all. -/
theorem c10_zero_duration_empty (W H sz off d op : ℕ) (uri : String) :
    jsCeilDiv 0 (d * 2) = 0 ∧
    generateWatermarkSequence W H 0 sz off d op uri = [] := by
  have h0 : jsCeilDiv 0 (d * 2) = 0 := by
    rcases d with _ | d
    · rfl
    · exact Nat.div_eq_of_lt (by omega)
  refine ⟨h0, ?_⟩
  show ((List.range (jsCeilDiv 0 (d * (wmCorners W H sz off).length))).foldl
      (sequenceStep 0 sz d op uri (wmCorners W H sz off)) ([], 0)).1 = []
  have hlen : (wmCorners W H sz off).length = 2 := rfl
  rw [hlen, h0]
  simp

/-- **C3**: a probe whose color space is one of
`yuv420p10le` / `yuv420p` / `yuvj420p` selects static mode — exactly two
placements, layer 0 at `(offset, offset)` and layer 1 at
`(geometry.width - size - offset, geometry.height - size - offset)`, with no
start-time and no duration field; every other color space (including a probe
that reported none) selects looping mode. -/
theorem c3_colorspace_mode_selection (bucket : String) (metadata : VideoMetadata) :
    let geo := calculateOutputResolution metadata.width metadata.height 1920
    let size := calculateWatermarkSize geo.width geo.height 10 80
    let off := calculateWatermarkOffset geo.width geo.height
    let uri := "s3://" ++ bucket ++ "/assets/watermark.png"
    ((∃ s, metadata.colorSpace = some s ∧ s ∈ problematicColorSpaces) →
      selectWatermarkSequence bucket metadata =
        [{ imageInserterInput := uri
           layer := 0
           opacity := 80
           width := size
           height := size
           duration := none
           startTimeMs := none
           imageX := (off : ℤ)
           imageY := (off : ℤ) },
         { imageInserterInput := uri
           layer := 1
           opacity := 80
           width := size
           height := size
           duration := none
           startTimeMs := none
           imageX := (geo.width : ℤ) - (size : ℤ) - (off : ℤ)
           imageY := (geo.height : ℤ) - (size : ℤ) - (off : ℤ) }]) ∧
    ((¬ ∃ s, metadata.colorSpace = some s ∧ s ∈ problematicColorSpaces) →
      selectWatermarkSequence bucket metadata =
        generateWatermarkSequence geo.width geo.height metadata.durationMs
          size off 5000 80 uri) := by
  have hstatic : needsStaticWatermark metadata = true ↔
      ∃ s, metadata.colorSpace = some s ∧ s ∈ problematicColorSpaces := by
    cases hcs : metadata.colorSpace with
    | none => simp [needsStaticWatermark, hcs]
    | some s => simp [needsStaticWatermark, hcs]
  constructor
  · intro hex
    have hb : needsStaticWatermark metadata = true := hstatic.mpr hex
    simp only [selectWatermarkSequence, hb, if_true]
    rfl
  · intro hnex
    have hb : needsStaticWatermark metadata = false := by
      rcases Bool.eq_false_or_eq_true (needsStaticWatermark metadata) with h | h
      · exact absurd (hstatic.mp h) hnex
      · exact h
    simp only [selectWatermarkSequence, hb, Bool.false_eq_true, if_false]

/-- Witness for **C3**: a `yuv420p` probe takes the static branch and a
`rgb24` probe takes the looping branch, at concrete inputs. -/
theorem c3_colorspace_mode_selection_witness :
    (let geo := calculateOutputResolution 1920 1080 1920
     let size := calculateWatermarkSize geo.width geo.height 10 80
     let off := calculateWatermarkOffset geo.width geo.height
     let uri := "s3://" ++ "b" ++ "/assets/watermark.png"
     selectWatermarkSequence "b" ⟨15000, 1920, 1080, 5000000, some "yuv420p"⟩ =
       [{ imageInserterInput := uri
          layer := 0
          opacity := 80
          width := size
          height := size
          duration := none
          startTimeMs := none
          imageX := (off : ℤ)
          imageY := (off : ℤ) },
        { imageInserterInput := uri
          layer := 1
          opacity := 80
          width := size
          height := size
          duration := none
          startTimeMs := none
          imageX := (geo.width : ℤ) - (size : ℤ) - (off : ℤ)
          imageY := (geo.height : ℤ) - (size : ℤ) - (off : ℤ) }]) ∧
    (let geo := calculateOutputResolution 1920 1080 1920
     let size := calculateWatermarkSize geo.width geo.height 10 80
     let off := calculateWatermarkOffset geo.width geo.height
     let uri := "s3://" ++ "b" ++ "/assets/watermark.png"
     selectWatermarkSequence "b" ⟨15000, 1920, 1080, 5000000, some "rgb24"⟩ =
       generateWatermarkSequence geo.width geo.height 15000 size off 5000 80 uri) :=
  ⟨(c3_colorspace_mode_selection "b" ⟨15000, 1920, 1080, 5000000, some "yuv420p"⟩).1
      ⟨"yuv420p", rfl, by decide⟩,
   (c3_colorspace_mode_selection "b" ⟨15000, 1920, 1080, 5000000, some "rgb24"⟩).2
      (by rintro ⟨s, hs, hmem⟩; cases hs; revert hmem; decide)⟩

/-! ## Monitor lemmas -/

theorem monitorStep_changed {st : MonitorState} {p : JobPoll}
    (h : some p.status ≠ st.previousStatus) :
    monitorStep st p = ({ st with previousStatus := some p.status },
      [.statusTransition p.status]) := by
  simp [monitorStep, h]

theorem monitorStep_unchanged_prev {st : MonitorState} {p : JobPoll}
    (h : ¬ some p.status ≠ st.previousStatus) :
    (monitorStep st p).1.previousStatus = st.previousStatus := by
  rw [monitorStep, if_neg h]
  split_ifs <;> rfl

theorem monitorStep_unchanged_events {st : MonitorState} {p : JobPoll}
    (h : ¬ some p.status ≠ st.previousStatus) :
    transitionEvents (monitorStep st p).2 = [] := by
  rw [monitorStep, if_neg h]
  split_ifs <;> simp [transitionEvents]

theorem transitionEvents_append (a b : List MonitorEvent) :
    transitionEvents (a ++ b) = transitionEvents a ++ transitionEvents b :=
  List.filterMap_append a b _

/-- **C6**: over any observed poll sequence, the monitor emits a status
transition event exactly when the status changes from the previously seen
one and never for a repeated status (its transition-event stream equals the
change-by-change stream demanded by the spec); in particular the sequence
Submitted, Progressing, Progressing, Complete yields exactly the three
transitions Submitted, Progressing, Complete. -/
theorem c6_transition_events_once_per_change :
    (∀ (st : MonitorState) (polls : List JobPoll),
      transitionEvents (runMonitor st polls).2
        = specTransitions st.previousStatus (observedStatuses polls)) ∧
    transitionEvents (runMonitor ⟨none, 0⟩
      [⟨.submitted, 0, none⟩, ⟨.progressing, 5, none⟩,
       ⟨.progressing, 10, none⟩, ⟨.complete, 15, none⟩]).2
      = [.submitted, .progressing, .complete] := by
  have general : ∀ (polls : List JobPoll) (st : MonitorState),
      transitionEvents (runMonitor st polls).2
        = specTransitions st.previousStatus (observedStatuses polls) := by
    intro polls
    induction polls with
    | nil => intro st; simp [runMonitor, observedStatuses, specTransitions,
        transitionEvents]
    | cons p rest ih =>
      intro st
      simp only [runMonitor, observedStatuses]
      by_cases hterm : isTerminalStatus p.status = true
      · rw [if_pos hterm, if_pos hterm]
        by_cases hch : some p.status ≠ st.previousStatus
        · rw [monitorStep_changed hch, specTransitions, if_pos hch,
            specTransitions]
          rfl
        · rw [monitorStep_unchanged_events hch, specTransitions, if_neg hch,
            specTransitions]
      · rw [if_neg hterm, if_neg hterm]
        by_cases hch : some p.status ≠ st.previousStatus
        · rw [monitorStep_changed hch]
          show transitionEvents ([MonitorEvent.statusTransition p.status]
              ++ (runMonitor { st with previousStatus := some p.status } rest).2)
            = _
          rw [transitionEvents_append, ih, specTransitions, if_pos hch]
          rfl
        · show transitionEvents ((monitorStep st p).2
              ++ (runMonitor (monitorStep st p).1 rest).2) = _
          rw [transitionEvents_append, monitorStep_unchanged_events hch, ih,
            monitorStep_unchanged_prev hch, specTransitions, if_neg hch]
          rfl
  exact ⟨fun st polls => general polls st, by decide⟩

/-- **C8** (amended): on a poll whose status repeats the previous
`PROGRESSING` status, a periodic progress event is emitted iff at least 10
elapsed seconds have passed since the last progress log **or the service
reported any percent-complete value on this poll** (mere presence — the code
does not compare it with the previously reported value); after emitting,
`lastProgressUpdate` becomes the current elapsed seconds, and otherwise the
session state is unchanged. -/
theorem c8_progress_cadence (st : MonitorState) (poll : JobPoll)
    (hprev : st.previousStatus = some .progressing)
    (hstat : poll.status = .progressing) :
    ((monitorStep st poll).2 = [.progressUpdate poll.elapsedSeconds] ↔
      (10 ≤ poll.elapsedSeconds - st.lastProgressUpdate ∨
        poll.percentComplete ≠ none)) ∧
    ((10 ≤ poll.elapsedSeconds - st.lastProgressUpdate ∨
        poll.percentComplete ≠ none) →
      (monitorStep st poll)
        = ({ st with lastProgressUpdate := poll.elapsedSeconds },
           [.progressUpdate poll.elapsedSeconds])) ∧
    (¬ (10 ≤ poll.elapsedSeconds - st.lastProgressUpdate ∨
        poll.percentComplete ≠ none) →
      monitorStep st poll = (st, [])) := by
  have hns : ¬ some poll.status ≠ st.previousStatus := by
    rw [hprev, hstat]
    simp
  simp only [monitorStep, if_neg hns, if_pos hstat]
  refine ⟨?_, ?_, ?_⟩
  · split_ifs with h
    · simp [h]
    · simp [h]
  · intro h
    rw [if_pos h]
  · intro h
    rw [if_neg h]

/-- Witness for **C8** at a concrete repeated-`PROGRESSING` poll 12 s after
the last progress log. -/
theorem c8_progress_cadence_witness :
    ((monitorStep ⟨some .progressing, 0⟩ ⟨.progressing, 12, none⟩).2
        = [.progressUpdate 12] ↔
      (10 ≤ 12 - 0 ∨ (none : Option ℕ) ≠ none)) ∧
    ((10 ≤ 12 - 0 ∨ (none : Option ℕ) ≠ none) →
      (monitorStep ⟨some .progressing, 0⟩ ⟨.progressing, 12, none⟩)
        = (⟨some .progressing, 12⟩, [.progressUpdate 12])) ∧
    (¬ (10 ≤ 12 - 0 ∨ (none : Option ℕ) ≠ none) →
      monitorStep ⟨some .progressing, 0⟩ ⟨.progressing, 12, none⟩
        = (⟨some .progressing, 0⟩, [])) :=
  c8_progress_cadence ⟨some .progressing, 0⟩ ⟨.progressing, 12, none⟩ rfl rfl

/-- Counterexample to **C8** as stated: with the last progress log 5 s ago
and the service reporting the *same* percent-complete value (42) as on the
previous poll, the claim predicts no event for the final poll, but the code
emits one on every poll that carries any percent-complete value: the run
emits progress events at 5 s and at 6 s. -/
theorem c8_progress_cadence_counterexample :
    runMonitor ⟨none, 0⟩
      [⟨.progressing, 0, some 42⟩, ⟨.progressing, 5, some 42⟩,
       ⟨.progressing, 6, some 42⟩]
      = (⟨some .progressing, 6⟩,
         [.statusTransition .progressing, .progressUpdate 5,
          .progressUpdate 6]) := by decide

/-! ## URI reconstruction lemmas -/

theorem takeWhile_takeWhile_self (q : Char → Bool) (l : List Char) :
    (l.takeWhile q).takeWhile q = l.takeWhile q := by
  induction l with
  | nil => rfl
  | cons a l ih =>
    by_cases h : q a
    · simp [List.takeWhile_cons, h, ih]
    · simp [List.takeWhile_cons, h]

theorem jsBasename_idem (p : String) :
    jsBasename (jsBasename p) = jsBasename p := by
  unfold jsBasename
  rw [show (String.mk ((p.toList.reverse.takeWhile
      (fun c => c ≠ '/')).reverse)).toList
    = (p.toList.reverse.takeWhile (fun c => c ≠ '/')).reverse from rfl]
  rw [List.reverse_reverse, takeWhile_takeWhile_self]

theorem baseNameNoExt_jsBasename (p : String) :
    baseNameNoExt (jsBasename p) = baseNameNoExt p := by
  unfold baseNameNoExt jsExtname
  rw [jsBasename_idem]

/-- **C7**: on `COMPLETE` with a fully-populated echoed job, the monitor
reconstructs the output URI as the destination with any trailing slash
stripped, then `/`, then the input's base name (extension removed), then the
name modifier (or `_` + current time when absent), then the extension mapped
from the echoed container (`MP4 → .mp4`, `MOV → .mov`, default `.mp4`); and
on `COMPLETE` the monitor always resolves successfully with the completed
job — when the settings needed for reconstruction are absent it degrades to
`outputUri = none` instead of failing. -/
theorem c7_output_uri_reconstruction :
    (∀ (d fi : String) (nm : Option String) (c : Option String) (nowMs : ℕ),
      tryReconstructUri
        ⟨some ⟨[⟨some d, [⟨nm, c⟩]⟩], [⟨some fi⟩]⟩⟩ nowMs
        = some (stripTrailingSlash d ++ "/" ++ baseNameNoExt fi ++
            (match nm with
             | some m => m
             | none => "_" ++ toString nowMs) ++
            (if c = some "MP4" then ".mp4"
             else if c = some "MOV" then ".mov" else ".mp4"))) ∧
    (∀ (job : RemoteJob) (status : RemoteStatus) (nowMs : ℕ),
      status = .complete →
      terminalOutcome job status nowMs
        = .ok (some { job := job, outputUri := tryReconstructUri job nowMs })) ∧
    (∀ (job : RemoteJob) (nowMs : ℕ), job.settings = none →
      terminalOutcome job .complete nowMs = .ok (some { job := job, outputUri := none })) := by
  refine ⟨?_, ?_, ?_⟩
  · intro d fi nm c nowMs
    rcases nm with _ | m
    · rw [← baseNameNoExt_jsBasename fi]
      rfl
    · rw [← baseNameNoExt_jsBasename fi]
      rfl
  · intro job status nowMs h
    subst h
    rfl
  · rintro ⟨s⟩ nowMs hset
    have : s = none := hset
    subst this
    rfl

/-- Witness for **C7**: a concrete completed job with destination
`s3://bucket/outputs/`, input `s3://bucket/uploads/video.mov`, name modifier
`_123`, container `MP4`, and a settings-less completed job that still
resolves successfully. -/
theorem c7_output_uri_reconstruction_witness :
    tryReconstructUri
      ⟨some ⟨[⟨some "s3://bucket/outputs/", [⟨some "_123", some "MP4"⟩]⟩],
        [⟨some "s3://bucket/uploads/video.mov"⟩]⟩⟩ 0
      = some ("s3://bucket/outputs" ++ "/" ++ "video" ++ "_123" ++ ".mp4") ∧
    terminalOutcome ⟨none⟩ .complete 0 = .ok (some { job := ⟨none⟩, outputUri := none }) := by
  constructor
  · have h := (c7_output_uri_reconstruction).1 "s3://bucket/outputs/"
      "s3://bucket/uploads/video.mov" (some "_123") (some "MP4") 0
    rw [h]
    rfl
  · exact (c7_output_uri_reconstruction).2.2 ⟨none⟩ 0 rfl

/-! ## Geometry and bitrate lemmas -/

theorem calcOutputResolution_1921_1081 :
    calculateOutputResolution 1921 1081 1920 = ⟨1920, 1080⟩ := by
  simp only [calculateOutputResolution]
  rw [if_neg (by norm_num)]
  have hmax : (max 1921 1081 : ℕ) = 1921 := by norm_num
  rw [hmax]
  push_cast
  have h1 : mathRound ((1921 : ℚ) * ((1920 : ℚ) / (1921 : ℚ))) = 1920 := by
    rw [mathRound, Nat.floor_eq_iff (by norm_num)]
    norm_num
  have h2 : mathRound ((1081 : ℚ) * ((1920 : ℚ) / (1921 : ℚ))) = 1080 := by
    rw [mathRound, Nat.floor_eq_iff (by norm_num)]
    norm_num
  rw [h1, h2]
  decide

/-- **C2** (amended): for input 1921×1081 with `maxLongEdge = 1920` the
scaling chain gives `round(1921·(1920/1921)) = 1920` (the product is exactly
1920) and `round(1081·(1920/1921)) = round(1080.437…) = 1080`; even-rounding
leaves both unchanged, so the Geometry Planner returns (1920, 1080) — not
the (1919, 1079) → (1918, 1078) chain the claim asserts. -/
theorem c2_geometry_1921x1081 :
    mathRound ((1921 : ℚ) * ((1920 : ℚ) / (1921 : ℚ))) = 1920 ∧
    mathRound ((1081 : ℚ) * ((1920 : ℚ) / (1921 : ℚ))) = 1080 ∧
    ensureEven 1920 = 1920 ∧ ensureEven 1080 = 1080 ∧
    calculateOutputResolution 1921 1081 1920 = ⟨1920, 1080⟩ := by
  refine ⟨?_, ?_, by decide, by decide, calcOutputResolution_1921_1081⟩
  · rw [mathRound, Nat.floor_eq_iff (by norm_num)]
    norm_num
  · rw [mathRound, Nat.floor_eq_iff (by norm_num)]
    norm_num

/-- Counterexample to **C2** as stated: the Geometry Planner does not return
(1918, 1078) for 1921×1081 (it returns (1920, 1080)). -/
theorem c2_geometry_1921x1081_counterexample :
    calculateOutputResolution 1921 1081 1920 ≠ ⟨1918, 1078⟩ := by
  rw [calcOutputResolution_1921_1081]
  decide

theorem jobScaleFactor_fullhd (dur br : ℕ) (cs : Option String) :
    jobScaleFactor ⟨dur, 1920, 1080, br, cs⟩ = 1 := by
  have hres : calculateOutputResolution 1920 1080 1920 = ⟨1920, 1080⟩ := by decide
  simp only [jobScaleFactor, hres]
  push_cast
  norm_num

/-- **C4** (amended): the output bitrate is
`min(floor(sourceBitrateBps · scaleFactor), 10 000 000)`; the 5 000 000 bps
default enters only through the whole-metadata fallback used when the probe
*throws* — a successful probe that reports `bitrate = 0` is scaled as-is and
yields output 0. -/
theorem c4_bitrate_plan (metadata : VideoMetadata) :
    jobOutputBitrate metadata
      = min (mathFloor ((metadata.bitrate : ℚ) * jobScaleFactor metadata)) 10000000 ∧
    defaultVideoMetadata.bitrate = 5000000 ∧
    (metadata.bitrate = 0 → jobOutputBitrate metadata = 0) := by
  refine ⟨rfl, rfl, ?_⟩
  intro h0
  simp [jobOutputBitrate, h0, mathFloor]

/-- Witness for **C4**: a successful probe reporting zero bitrate at
1920×1080 yields output bitrate 0. -/
theorem c4_bitrate_plan_witness :
    (⟨15000, 1920, 1080, 0, none⟩ : VideoMetadata).bitrate = 0 ∧
    jobOutputBitrate ⟨15000, 1920, 1080, 0, none⟩ = 0 :=
  ⟨rfl, (c4_bitrate_plan ⟨15000, 1920, 1080, 0, none⟩).2.2 rfl⟩

/-- Counterexample to **C4** as stated: for a successful probe reporting
`bitrate = 0` on a 1920×1080 source, the code outputs 0 — it does *not*
substitute the 5 000 000 bps default (which would have produced
`min(floor(5 000 000 · 1), 10 000 000) = 5 000 000`). -/
theorem c4_bitrate_plan_counterexample :
    jobOutputBitrate ⟨15000, 1920, 1080, 0, some "unknown"⟩ = 0 ∧
    min (mathFloor ((5000000 : ℚ)
      * jobScaleFactor ⟨15000, 1920, 1080, 0, some "unknown"⟩)) 10000000
      = 5000000 := by
  have hs : jobScaleFactor ⟨15000, 1920, 1080, 0, some "unknown"⟩ = 1 :=
    jobScaleFactor_fullhd 15000 0 (some "unknown")
  constructor
  · simp [jobOutputBitrate, hs, mathFloor]
  · rw [hs, mul_one]
    rw [show mathFloor (5000000 : ℚ) = 5000000 from Nat.floor_ofNat 5000000]
    norm_num

/-- **C5** (amended): when `max(width, height) ≤ 1920` the Geometry Planner
returns the even-rounded input dimensions, and the scale factor handed to the
bitrate computation is `min(evenW/width, evenH/height)` — which equals 1
exactly when both input dimensions are already even, and is strictly below 1
for odd-valued dimensions. -/
theorem c5_no_scaling_branch (metadata : VideoMetadata)
    (hw : 0 < metadata.width) (hh : 0 < metadata.height)
    (hle : max metadata.width metadata.height ≤ 1920) :
    calculateOutputResolution metadata.width metadata.height 1920
      = ⟨ensureEven metadata.width, ensureEven metadata.height⟩ ∧
    jobScaleFactor metadata
      = min ((ensureEven metadata.width : ℚ) / (metadata.width : ℚ))
          ((ensureEven metadata.height : ℚ) / (metadata.height : ℚ)) ∧
    (jobScaleFactor metadata = 1 ↔
      metadata.width % 2 = 0 ∧ metadata.height % 2 = 0) := by
  have h1 : calculateOutputResolution metadata.width metadata.height 1920
      = ⟨ensureEven metadata.width, ensureEven metadata.height⟩ := by
    simp only [calculateOutputResolution]
    rw [if_pos hle]
  have h2 : jobScaleFactor metadata
      = min ((ensureEven metadata.width : ℚ) / (metadata.width : ℚ))
          ((ensureEven metadata.height : ℚ) / (metadata.height : ℚ)) := by
    simp only [jobScaleFactor, h1]
  have hwQ : (0 : ℚ) < (metadata.width : ℚ) := by exact_mod_cast hw
  have hhQ : (0 : ℚ) < (metadata.height : ℚ) := by exact_mod_cast hh
  have hEw : ensureEven metadata.width ≤ metadata.width := by
    unfold ensureEven
    omega
  have hEh : ensureEven metadata.height ≤ metadata.height := by
    unfold ensureEven
    omega
  have ha1 : ((ensureEven metadata.width : ℚ) / (metadata.width : ℚ)) ≤ 1 := by
    rw [div_le_one hwQ]
    exact_mod_cast hEw
  have hb1 : ((ensureEven metadata.height : ℚ) / (metadata.height : ℚ)) ≤ 1 := by
    rw [div_le_one hhQ]
    exact_mod_cast hEh
  refine ⟨h1, h2, ?_⟩
  rw [h2]
  constructor
  · intro hmin
    have hA : ((ensureEven metadata.width : ℚ) / (metadata.width : ℚ)) = 1 :=
      le_antisymm ha1 (by rw [← hmin]; exact min_le_left _ _)
    have hB : ((ensureEven metadata.height : ℚ) / (metadata.height : ℚ)) = 1 :=
      le_antisymm hb1 (by rw [← hmin]; exact min_le_right _ _)
    have hA2 : ensureEven metadata.width = metadata.width := by
      have := (div_eq_one_iff_eq (ne_of_gt hwQ)).mp hA
      exact_mod_cast this
    have hB2 : ensureEven metadata.height = metadata.height := by
      have := (div_eq_one_iff_eq (ne_of_gt hhQ)).mp hB
      exact_mod_cast this
    unfold ensureEven at hA2 hB2
    omega
  · rintro ⟨hew, heh⟩
    have hw2 : ensureEven metadata.width = metadata.width := by
      unfold ensureEven
      omega
    have hh2 : ensureEven metadata.height = metadata.height := by
      unfold ensureEven
      omega
    rw [hw2, hh2, div_self (ne_of_gt hwQ), div_self (ne_of_gt hhQ), min_self]

/-- Witness for **C5** (amended) at the even in-range input 1280×720. -/
theorem c5_no_scaling_branch_witness :
    0 < 1280 ∧ 0 < 720 ∧ max 1280 720 ≤ 1920 ∧
    calculateOutputResolution 1280 720 1920 = ⟨ensureEven 1280, ensureEven 720⟩ :=
  ⟨by decide, by decide, by decide,
    (c5_no_scaling_branch ⟨15000, 1280, 720, 5000000, none⟩
      (by decide) (by decide) (by decide)).1⟩

/-- Counterexample to **C5** as stated: 1001×501 is within the 1920 long-edge
limit, yet the scale factor handed to the Bitrate Planner is
`min(1000/1001, 500/501) = 500/501 ≠ 1`. -/
theorem c5_no_scaling_branch_counterexample :
    max 1001 501 ≤ 1920 ∧
    jobScaleFactor ⟨15000, 1001, 501, 5000000, none⟩ ≠ 1 := by
  refine ⟨by norm_num, ?_⟩
  have hres : calculateOutputResolution 1001 501 1920 = ⟨1000, 500⟩ := by decide
  simp only [jobScaleFactor, hres]
  push_cast
  have hcmp : ((500 : ℚ) / 501) ≤ ((1000 : ℚ) / 1001) := by norm_num
  rw [min_eq_right hcmp]
  norm_num

/-! ## Watermark size and offset bounds -/

theorem calculateWatermarkSize_eq (W H : ℕ) :
    calculateWatermarkSize W H 10 80 = max (min W H * 10 / 100) 80 := by
  simp only [calculateWatermarkSize, mathFloor]
  have hmax : (⌊(((min W H : ℕ) : ℚ) * ((10 : ℕ) : ℚ)) / (100 : ℚ) ⊔ ((80 : ℕ) : ℚ)⌋₊ : ℕ)
      = ⌊(((min W H : ℕ) : ℚ) * ((10 : ℕ) : ℚ)) / (100 : ℚ)⌋₊ ⊔ ⌊((80 : ℕ) : ℚ)⌋₊ :=
    Nat.floor_mono.map_max
  rw [hmax]
  rw [show (((min W H : ℕ) : ℚ) * ((10 : ℕ) : ℚ)) / (100 : ℚ)
      = ((min W H * 10 : ℕ) : ℚ) / ((100 : ℕ) : ℚ) by push_cast; ring]
  rw [Nat.floor_div_nat, Nat.floor_natCast, Nat.floor_natCast]

theorem calculateWatermarkOffset_ge (W H : ℕ) :
    20 ≤ calculateWatermarkOffset W H := by
  simp only [calculateWatermarkOffset]
  exact le_max_right _ _

theorem calculateWatermarkOffset_le (W H : ℕ) :
    calculateWatermarkOffset W H ≤ max (min W H / 20) 20 := by
  simp only [calculateWatermarkOffset, mathFloor]
  have hpct : max (3 : ℚ) (min 5 (((min W H : ℕ) : ℚ) / 400)) ≤ 5 :=
    max_le (by norm_num) (min_le_left _ _)
  have hmul : (((min W H : ℕ) : ℚ)
        * (max (3 : ℚ) (min 5 (((min W H : ℕ) : ℚ) / 400)))) / 100
      ≤ (((min W H : ℕ) : ℚ) * 5) / 100 := by
    gcongr
  have hfl : ⌊(((min W H : ℕ) : ℚ)
        * (max (3 : ℚ) (min 5 (((min W H : ℕ) : ℚ) / 400)))) / 100⌋₊
      ≤ min W H / 20 := by
    calc ⌊(((min W H : ℕ) : ℚ)
          * (max (3 : ℚ) (min 5 (((min W H : ℕ) : ℚ) / 400)))) / 100⌋₊
        ≤ ⌊(((min W H : ℕ) : ℚ) * 5) / 100⌋₊ := Nat.floor_mono hmul
      _ = min W H / 20 := by
          rw [show (((min W H : ℕ) : ℚ) * 5) / 100
              = ((min W H * 5 : ℕ) : ℚ) / ((100 : ℕ) : ℚ) by push_cast; ring]
          rw [Nat.floor_div_nat, Nat.floor_natCast]
          omega
  exact max_le_max hfl (le_refl 20)

theorem calculateWatermarkOffset_of_small (W H : ℕ) (h : min W H ≤ 1200) :
    calculateWatermarkOffset W H = max (min W H * 3 / 100) 20 := by
  simp only [calculateWatermarkOffset, mathFloor]
  have h400 : (((min W H : ℕ) : ℚ) / 400) ≤ 3 := by
    rw [div_le_iff₀ (by norm_num)]
    calc ((min W H : ℕ) : ℚ) ≤ ((1200 : ℕ) : ℚ) := by exact_mod_cast h
      _ ≤ 3 * 400 := by norm_num
  rw [min_eq_right (le_trans h400 (by norm_num)), max_eq_left h400]
  rw [show (((min W H : ℕ) : ℚ) * (3 : ℚ)) / 100
      = ((min W H * 3 : ℕ) : ℚ) / ((100 : ℕ) : ℚ) by push_cast; ring]
  rw [Nat.floor_div_nat, Nat.floor_natCast]

/-- For every geometry whose smaller dimension is at least 100 px, the
watermark size plus the edge offset fits inside the smaller dimension. -/
theorem size_add_offset_le (W H : ℕ) (h : 100 ≤ min W H) :
    calculateWatermarkSize W H 10 80 + calculateWatermarkOffset W H ≤ min W H := by
  have hsz := calculateWatermarkSize_eq W H
  have hof := calculateWatermarkOffset_le W H
  omega

theorem generateWatermarkSequence_mem_corners {W H V sz off d op : ℕ}
    {uri : String} (hd : 0 < d) {wm : InsertableImage}
    (hwm : wm ∈ generateWatermarkSequence W H V sz off d op uri) :
    wm.width = sz ∧ wm.height = sz ∧
    ((wm.imageX = (off : ℤ) ∧ wm.imageY = (off : ℤ)) ∨
      (wm.imageX = (W : ℤ) - (sz : ℤ) - (off : ℤ) ∧
       wm.imageY = (H : ℤ) - (sz : ℤ) - (off : ℤ))) := by
  rw [generateWatermarkSequence_closed W H V sz off d op uri hd] at hwm
  rw [List.mem_map] at hwm
  obtain ⟨k, hk, rfl⟩ := hwm
  refine ⟨rfl, rfl, ?_⟩
  by_cases hk2 : k % 2 = 0
  · left
    constructor <;> simp [loopPlacementAt, hk2]
  · right
    constructor <;> simp [loopPlacementAt, hk2]

theorem generateStaticWatermarks_mem_corners {W H sz off op : ℕ}
    {uri : String} {wm : InsertableImage}
    (hwm : wm ∈ generateStaticWatermarks W H sz off op uri) :
    wm.width = sz ∧ wm.height = sz ∧
    ((wm.imageX = (off : ℤ) ∧ wm.imageY = (off : ℤ)) ∨
      (wm.imageX = (W : ℤ) - (sz : ℤ) - (off : ℤ) ∧
       wm.imageY = (H : ℤ) - (sz : ℤ) - (off : ℤ))) := by
  simp only [generateStaticWatermarks, List.mem_cons, List.mem_singleton,
    List.not_mem_nil, or_false] at hwm
  rcases hwm with rfl | rfl
  · exact ⟨rfl, rfl, Or.inl ⟨rfl, rfl⟩⟩
  · exact ⟨rfl, rfl, Or.inr ⟨rfl, rfl⟩⟩

/-- **C9** (amended): for every output geometry whose smaller dimension is at
least 100 px, every placement emitted in either overlay mode has `x ≥ 0`,
`y ≥ 0`, and fits inside the geometry (`x + size ≤ width`,
`y + size ≤ height`).  (For smaller geometries the minimum size 80 px plus
minimum offset 20 px overflow the frame — see the counterexample.) -/
theorem c9_placements_in_bounds (bucket : String) (metadata : VideoMetadata)
    (hmin : 100 ≤ min
      (calculateOutputResolution metadata.width metadata.height 1920).width
      (calculateOutputResolution metadata.width metadata.height 1920).height) :
    ∀ wm ∈ selectWatermarkSequence bucket metadata,
      0 ≤ wm.imageX ∧ 0 ≤ wm.imageY ∧
      wm.imageX + (wm.width : ℤ)
        ≤ ((calculateOutputResolution metadata.width metadata.height 1920).width : ℤ) ∧
      wm.imageY + (wm.height : ℤ)
        ≤ ((calculateOutputResolution metadata.width metadata.height 1920).height : ℤ) := by
  intro wm hwm
  have hsum := size_add_offset_le
    (calculateOutputResolution metadata.width metadata.height 1920).width
    (calculateOutputResolution metadata.width metadata.height 1920).height hmin
  have hoff := calculateWatermarkOffset_ge
    (calculateOutputResolution metadata.width metadata.height 1920).width
    (calculateOutputResolution metadata.width metadata.height 1920).height
  by_cases hns : needsStaticWatermark metadata = true
  · have hsel : selectWatermarkSequence bucket metadata
        = generateStaticWatermarks
            (calculateOutputResolution metadata.width metadata.height 1920).width
            (calculateOutputResolution metadata.width metadata.height 1920).height
            (calculateWatermarkSize
              (calculateOutputResolution metadata.width metadata.height 1920).width
              (calculateOutputResolution metadata.width metadata.height 1920).height 10 80)
            (calculateWatermarkOffset
              (calculateOutputResolution metadata.width metadata.height 1920).width
              (calculateOutputResolution metadata.width metadata.height 1920).height) 80
            ("s3://" ++ bucket ++ "/assets/watermark.png") := by
      simp only [selectWatermarkSequence, hns, if_true]
    rw [hsel] at hwm
    obtain ⟨hw, hh, hc⟩ := generateStaticWatermarks_mem_corners hwm
    rcases hc with ⟨hx, hy⟩ | ⟨hx, hy⟩ <;> rw [hx, hy, hw, hh] <;>
      refine ⟨?_, ?_, ?_, ?_⟩ <;> omega
  · have hsel : selectWatermarkSequence bucket metadata
        = generateWatermarkSequence
            (calculateOutputResolution metadata.width metadata.height 1920).width
            (calculateOutputResolution metadata.width metadata.height 1920).height
            metadata.durationMs
            (calculateWatermarkSize
              (calculateOutputResolution metadata.width metadata.height 1920).width
              (calculateOutputResolution metadata.width metadata.height 1920).height 10 80)
            (calculateWatermarkOffset
              (calculateOutputResolution metadata.width metadata.height 1920).width
              (calculateOutputResolution metadata.width metadata.height 1920).height)
            5000 80 ("s3://" ++ bucket ++ "/assets/watermark.png") := by
      simp only [selectWatermarkSequence, hns, Bool.false_eq_true, if_false]
    rw [hsel] at hwm
    obtain ⟨hw, hh, hc⟩ :=
      generateWatermarkSequence_mem_corners (by norm_num) hwm
    rcases hc with ⟨hx, hy⟩ | ⟨hx, hy⟩ <;> rw [hx, hy, hw, hh] <;>
      refine ⟨?_, ?_, ?_, ?_⟩ <;> omega

theorem selectWatermark_200_eval :
    selectWatermarkSequence "b" ⟨15000, 200, 200, 5000000, some "yuv420p"⟩
    = generateStaticWatermarks 200 200 80 20 80 "s3://b/assets/watermark.png" := by
  have hres : calculateOutputResolution 200 200 1920 = ⟨200, 200⟩ := by decide
  have hsz : calculateWatermarkSize 200 200 10 80 = 80 := by
    rw [calculateWatermarkSize_eq]
    decide
  have hof : calculateWatermarkOffset 200 200 = 20 := by
    rw [calculateWatermarkOffset_of_small 200 200 (by decide)]
    decide
  have hns : needsStaticWatermark ⟨15000, 200, 200, 5000000, some "yuv420p"⟩
      = true := by decide
  simp only [selectWatermarkSequence, hres, hns, if_true]
  rw [hsz, hof]
  rfl

theorem mem_selectWatermark_200 :
    ({ imageInserterInput := "s3://b/assets/watermark.png", layer := 1,
       opacity := 80, width := 80, height := 80, duration := none,
       startTimeMs := none, imageX := 100, imageY := 100 } : InsertableImage)
    ∈ selectWatermarkSequence "b" ⟨15000, 200, 200, 5000000, some "yuv420p"⟩ := by
  rw [selectWatermark_200_eval]
  decide

/-- Witness for **C9** (amended): on a 200×200 geometry (static mode) the
bottom-right placement at (100, 100) with size 80 lies within bounds. -/
theorem c9_placements_in_bounds_witness :
    100 ≤ min (calculateOutputResolution 200 200 1920).width
        (calculateOutputResolution 200 200 1920).height ∧
    (0 ≤ (100 : ℤ) ∧ 0 ≤ (100 : ℤ) ∧
      (100 : ℤ) + ((80 : ℕ) : ℤ) ≤ ((calculateOutputResolution 200 200 1920).width : ℤ) ∧
      (100 : ℤ) + ((80 : ℕ) : ℤ) ≤ ((calculateOutputResolution 200 200 1920).height : ℤ)) :=
  ⟨by decide,
   c9_placements_in_bounds "b" ⟨15000, 200, 200, 5000000, some "yuv420p"⟩
     (by decide) _ mem_selectWatermark_200⟩

theorem selectWatermark_98_eval :
    selectWatermarkSequence "b" ⟨15000, 98, 98, 5000000, some "yuv420p"⟩
    = generateStaticWatermarks 98 98 80 20 80 "s3://b/assets/watermark.png" := by
  have hres : calculateOutputResolution 98 98 1920 = ⟨98, 98⟩ := by decide
  have hsz : calculateWatermarkSize 98 98 10 80 = 80 := by
    rw [calculateWatermarkSize_eq]
    decide
  have hof : calculateWatermarkOffset 98 98 = 20 := by
    rw [calculateWatermarkOffset_of_small 98 98 (by decide)]
    decide
  have hns : needsStaticWatermark ⟨15000, 98, 98, 5000000, some "yuv420p"⟩
      = true := by decide
  simp only [selectWatermarkSequence, hres, hns, if_true]
  rw [hsz, hof]
  rfl

/-- Counterexample to **C9** as stated: on the valid 98×98 output geometry
(the Geometry Planner maps a 98×98 source to itself) the minimum watermark
size (80 px) and minimum offset (20 px) push the bottom-right placement to
`x = 98 - 80 - 20 = -2 < 0`. -/
theorem c9_placements_in_bounds_counterexample :
    calculateOutputResolution 98 98 1920 = ⟨98, 98⟩ ∧
    ∃ wm ∈ selectWatermarkSequence "b" ⟨15000, 98, 98, 5000000, some "yuv420p"⟩,
      wm.imageX < 0 := by
  refine ⟨by decide, ?_⟩
  rw [selectWatermark_98_eval]
  decide

